import Mathlib

/-!
# Verification of the apptainer OCI conveyor-packer core

This development gives a shallow embedding of the core of the repository:

* the generated Docker-environment translation script (`insertEnv`,
  `conveyorPacker_oci.go`),
* the generated runscript and its POSIX-shell evaluation semantics
  (`insertRunScript`),
* the in-container bootstrap `clear_env` / `restore_env` protocol
  (`action_scripts.go`),
* the `99-runtimevars.sh` PATH-override protocol,
* the bundle base-environment scaffold builder (`makeBaseEnv`,
  `base_environment.go`), and
* the defensive tar extractor (`extractArchive`).

Filesystem state is modelled as an association list from paths
(`List Char`) to entries (directory / regular file / symlink), with
symlink resolution bounded by a fuel parameter as in the kernel's
`ELOOP` limit.  Shell text is modelled as `List Char`; machine behaviour
of the generated scripts is modelled by executable Lean functions
translated from the script text.
-/

set_option maxRecDepth 100000

namespace Apptainer

/-! ## Runtime-vars protocol (`99-runtimevars.sh`)

Translated from `base99runtimevarsShFileContent` (the content written to
`.apptainer.d/env/99-runtimevars.sh` by `makeFiles`): three guarded PATH
rewrites, then an unconditional `unset` of all three control variables,
then `export PATH`. -/

/-- Shell environment state relevant to `99-runtimevars.sh`: the value of
`PATH` and the three `SING_USER_DEFINED_*` variables (`none` = unset). -/
structure RtState where
  path : String
  prependPath : Option String
  appendPath : Option String
  overridePath : Option String
  deriving DecidableEq

/-- The shell test `test -n "${V:-}"`: true iff the variable is set to a
non-empty value. -/
def rtSet (v : Option String) : Bool := (v.getD "") ≠ ""

/-- Semantics of sourcing `99-runtimevars.sh`
(`base99runtimevarsShFileContent`): prepend, append, then absolute
override of `PATH`, each only when the control variable is non-empty;
finally all three control variables are unset and `PATH` is exported. -/
def runtimeVars99 (s : RtState) : RtState :=
  let p := if rtSet s.prependPath then (s.prependPath.getD "") ++ ":" ++ s.path else s.path
  let p := if rtSet s.appendPath then p ++ ":" ++ (s.appendPath.getD "") else p
  let p := if rtSet s.overridePath then s.overridePath.getD "" else p
  { path := p, prependPath := none, appendPath := none, overridePath := none }

/-! ## Environment translation (`insertEnv`)

Translated from `OCIConveyorPacker.insertEnv`: one line per `Env` entry,
via Go `strings.SplitN(element, "=", 2)` and `fmt.Sprintf` with the `%q`
verb (Go `strconv.Quote`).  `shell.Escape` is not part of the provided
sources; it is modelled from the spec ("shell-escaped literals"):
backslash-escaping of backslash, double quote, dollar and backtick. -/

/-- A byte string, as a list of characters. -/
abbrev Chars := List Char

/-- Modelled from the spec: `shell.Escape` — backslash-escape the four
double-quote-sensitive shell metacharacters (backslash, double quote,
dollar, backtick) so a value survives re-evaluation inside double
quotes. -/
def shellEscape : Chars → Chars
  | [] => []
  | c :: cs =>
    if c = '\\' ∨ c = '"' ∨ c = '$' ∨ c = Char.ofNat 96 then
      '\\' :: c :: shellEscape cs
    else c :: shellEscape cs

/-- One hexadecimal digit, lower case, as used by Go `strconv.Quote`. -/
def hexDigit (n : Nat) : Char :=
  if n < 10 then Char.ofNat (48 + n) else Char.ofNat (87 + n)

/-- Go `strconv.Quote` on a single ASCII character (the `%q` verb):
double quote and backslash are backslash-escaped, the named control
escapes are used where Go defines them, other printable ASCII characters
are kept, remaining bytes use `\xHH`.  (Non-ASCII runes are outside the
modelled range.) -/
def goQuoteChar (c : Char) : Chars :=
  if c = '"' then ['\\', '"']
  else if c = '\\' then ['\\', '\\']
  else if c = Char.ofNat 7 then ['\\', 'a']
  else if c = Char.ofNat 8 then ['\\', 'b']
  else if c = Char.ofNat 9 then ['\\', 't']
  else if c = Char.ofNat 10 then ['\\', 'n']
  else if c = Char.ofNat 11 then ['\\', 'v']
  else if c = Char.ofNat 12 then ['\\', 'f']
  else if c = Char.ofNat 13 then ['\\', 'r']
  else if 32 ≤ c.toNat ∧ c.toNat < 127 then [c]
  else ['\\', 'x', hexDigit (c.toNat / 16 % 16), hexDigit (c.toNat % 16)]

/-- Go `strconv.Quote` (the `%q` formatting verb) on an ASCII string:
the escaped characters surrounded by double quotes. -/
def goQuote (s : Chars) : Chars :=
  '"' :: (s.flatMap goQuoteChar) ++ ['"']

/-- Go `strings.SplitN(s, "=", 2)`: split at the first `=` if any. -/
def splitEq : Chars → Option (Chars × Chars)
  | [] => none
  | c :: cs =>
    if c = '=' then some ([], cs)
    else (splitEq cs).map (fun r => (c :: r.1, r.2))

/-- One generated line of `10-docker2apptainer.sh`, translated from the
loop body of `insertEnv`:
a bare `KEY` yields `export KEY="${KEY:-}"`, a `PATH=value` entry yields
`export PATH=<%q of escaped value>`, and any other `KEY=value` entry
yields `export KEY="${KEY:-<%q of escaped value>}"`. -/
def insertEnvLine (element : Chars) : Chars :=
  match splitEq element with
  | none =>
      "export ".data ++ element ++ "=\"$\x7b".data ++ element ++ ":-\x7d\"\n".data
  | some (k, v) =>
      if k = "PATH".data then
        "export ".data ++ k ++ "=".data ++ goQuote (shellEscape v) ++ "\n".data
      else
        "export ".data ++ k ++ "=\"$\x7b".data ++ k ++ ":-".data ++
          goQuote (shellEscape v) ++ "\x7d\"\n".data

/-- The full content of the generated `10-docker2apptainer.sh`: the
`#!/bin/sh` header followed by one line per `Env` entry, built in order
by the write loop of `insertEnv`. -/
def insertEnvContent (env : List Chars) : Chars :=
  env.foldl (fun acc e => acc ++ insertEnvLine e) "#!/bin/sh\n".data

/-- Spec-side description of one translated line, used to compare the
source translation against the amended claim wording. -/
def envLineSpec (element : Chars) : Chars :=
  match splitEq element with
  | none => "export ".data ++ element ++ "=\"$\x7b".data ++ element ++ ":-\x7d\"\n".data
  | some (k, v) =>
      if k = "PATH".data then
        "export PATH=".data ++ goQuote (shellEscape v) ++ "\n".data
      else
        "export ".data ++ k ++ "=\"$\x7b".data ++ k ++ ":-".data ++
          goQuote (shellEscape v) ++ "\x7d\"\n".data

/-! ## Bootstrap sanitize/restore (`clear_env` / `restore_env`)

Translated from the `clear_env` and `restore_env` shell functions of
`ActionScript` (`action_scripts.go`).  The environment is an ordered
association list; `__exported_env__` is the immutable snapshot captured
by `INIT`.  The `getallenv`, `getenvkey` and `unescape` helpers are
interpreter builtins absent from the provided sources; they are modelled
from the spec as the snapshot being a list of key/value pairs
(`getenvkey` = first component, `unescape` of a captured line re-exports
the captured key with its captured value). -/

/-- An environment: ordered list of (key, value) bindings. -/
abbrev Env := List (String × String)

/-- Value of a key: first binding wins. -/
def lookupE : Env → String → Option String
  | [], _ => none
  | (k, v) :: r, q => if k = q then some v else lookupE r q

/-- Export a binding: replace the first existing binding else append. -/
def setE : Env → String → String → Env
  | [], k, v => [(k, v)]
  | (k0, v0) :: r, k, v =>
    if k0 = k then (k0, v) :: r else (k0, v0) :: setE r k v

/-- Unset a key: remove every binding for it. -/
def unsetE : Env → String → Env
  | [], _ => []
  | (k0, v0) :: r, k => if k0 = k then unsetE r k else (k0, v0) :: unsetE r k

/-- Allow-list of `clear_env`: variables never cleared. -/
def allowKeys : List String :=
  ["PWD", "HOME", "OPTIND", "UID", "GID", "APPTAINER_APPNAME", "APPTAINER_SHELL"]

/-- Variables made read-only (not cleared) by `clear_env`. -/
def roKeys : List String := ["APPTAINER_NAME", "APPTAINER_CONTAINER"]

/-- The `clear_env` pass: for every snapshot line, keep allow-listed
keys, mark the identity keys read-only (value untouched), unset the
rest. -/
def clearEnv (snapshot : Env) (env : Env) : Env :=
  snapshot.foldl
    (fun acc b =>
      if b.1 ∈ allowKeys then acc
      else if b.1 ∈ roKeys then acc
      else unsetE acc b.1)
    env

/-- A redefinition performed by a sourced environment script. -/
inductive EnvOp where
  | setv (k v : String)
  | unsetv (k : String)
  deriving DecidableEq

/-- Key an operation acts on. -/
def EnvOp.key : EnvOp → String
  | .setv k _ => k
  | .unsetv k => k

/-- Apply the redefinitions of the sourced scripts in order. -/
def applyOps : List EnvOp → Env → Env
  | [], env => env
  | .setv k v :: ops, env => applyOps ops (setE env k v)
  | .unsetv k :: ops, env => applyOps ops (unsetE env k)

/-- The `restore_env` pass: for every snapshot line, if the key is no
longer set (`! test -v`) re-export the captured value, else if it is set
to the empty value (`test -z`) unset it, else keep the sourced value. -/
def restoreEnv (snapshot : Env) (env : Env) : Env :=
  snapshot.foldl
    (fun acc b =>
      match lookupE acc b.1 with
      | none => setE acc b.1 b.2
      | some x => if x = "" then unsetE acc b.1 else acc)
    env

/-- The whole `INIT → SANITIZE → SOURCE_ENV → RESTORE` pipeline on the
environment, with the sourced scripts' effect given as `ops`: the
snapshot is the inherited environment itself. -/
def bootstrapEnv (snapshot : Env) (ops : List EnvOp) : Env :=
  restoreEnv snapshot (applyOps ops (clearEnv snapshot snapshot))

/-! ## Runscript generation and evaluation (`insertRunScript`)

`insertRunScript` writes a script that stores the quoted `Entrypoint`
and `Cmd` lists in `OCI_ENTRYPOINT` / `OCI_CMD`, collects the positional
arguments into `CMDLINE_ARGS`, assigns `APPTAINER_OCI_RUN` in three
blocks (the third block of the generated text is not guarded by a
condition and therefore always overwrites the first two), and finally
runs `eval "set ${APPTAINER_OCI_RUN}"` followed by `exec "$@"` — so the
command finally executed is the POSIX field-split-with-quotes
tokenization of `APPTAINER_OCI_RUN`.

`shell.ArgsQuoted` and `shell.EscapeSingleQuotes` are not part of the
provided sources and are modelled from the spec ("list values are
embedded as single-quoted, shell-escaped literals"). -/

/-- The single-quote character. -/
def sqChar : Char := Char.ofNat 39

/-- Modelled from the spec: `shell.EscapeSingleQuotes` — replace every
single quote by the `'"'"'` idiom so the value survives inside a
single-quoted literal. -/
def escapeSingleQuotesL : Chars → Chars
  | [] => []
  | c :: cs =>
    if c = sqChar then sqChar :: '"' :: sqChar :: '"' :: sqChar :: escapeSingleQuotesL cs
    else c :: escapeSingleQuotesL cs

/-- Modelled from the spec: `shell.ArgsQuoted` — each list element is
shell-escaped and wrapped in double quotes, elements separated by single
spaces. -/
def argsQuoted : List Chars → Chars
  | [] => []
  | [w] => '"' :: shellEscape w ++ ['"']
  | w :: ws => '"' :: shellEscape w ++ '"' :: ' ' :: argsQuoted ws

/-- Value held by `OCI_ENTRYPOINT` (resp. `OCI_CMD`) once the shell has
evaluated the generated assignment: the empty string for an empty list,
otherwise the quoted argument list.  The generated text wraps
`escapeSingleQuotesL (argsQuoted xs)` in single quotes, which the shell
strips back to `argsQuoted xs` (see `escapeSingleQuotesL_argsQuoted`). -/
def ociVar (xs : List Chars) : Chars :=
  if xs.isEmpty then [] else argsQuoted xs

/-- Value of `CMDLINE_ARGS` after the collection loop: for each
positional argument, a space, a double quote, the argument (not
escaped by the loop) and a closing double quote. -/
def cmdlineArgs (args : List Chars) : Chars :=
  (args.map (fun a => ' ' :: '"' :: (a ++ ['"']))).flatten

/-- Value of `APPTAINER_OCI_RUN` when `exec` is reached.  The three
assignment blocks of the generated script run in order; the third block
(`# ENTRYPOINT and CMD`) is not guarded, so its assignment always
overwrites the first two. -/
def apptainerOciRun (ep cmd args : List Chars) : Chars :=
  let e := ociVar ep
  let c := ociVar cmd
  let ca := cmdlineArgs args
  -- ENTRYPOINT only - run entrypoint plus args
  let v := if c = [] ∧ e ≠ [] then (if args ≠ [] then e ++ ' ' :: ca else e) else []
  -- CMD only - run CMD or override with args
  let v := if c ≠ [] ∧ e = [] then (if args ≠ [] then ca else c) else v
  -- ENTRYPOINT and CMD - unconditional in the generated text
  let _ := v
  if args ≠ [] then e ++ ' ' :: ca else e ++ ' ' :: c

/-- POSIX field splitting with double-quote grouping, as performed by
`eval "set ${APPTAINER_OCI_RUN}"` on an expansion-free string: state is
(remaining input, inside-double-quotes flag, current token reversed,
token-started flag).  An unterminated quote consumes the rest as the
last token. -/
def tokensAux : Chars → Bool → Chars → Bool → List Chars
  | [], _, acc, inW => if inW then [acc.reverse] else []
  | c :: cs, true, acc, inW =>
    if c = '"' then tokensAux cs false acc inW
    else tokensAux cs true (c :: acc) inW
  | c :: cs, false, acc, inW =>
    if c = '"' then tokensAux cs true acc true
    else if c = ' ' ∨ c = '\t' then
      (if inW then [acc.reverse] else []) ++ tokensAux cs false [] false
    else tokensAux cs false (c :: acc) true

/-- Tokenize a quote-carrying shell word sequence. -/
def tokens (s : Chars) : List Chars := tokensAux s false [] false

/-- The argv finally executed by the generated runscript:
`eval "set ${APPTAINER_OCI_RUN}"` re-tokenizes the assembled string and
`exec "$@"` runs the resulting words. -/
def runscriptArgv (ep cmd args : List Chars) : List Chars :=
  tokens (apptainerOciRun ep cmd args)

/-- Modelled from the spec: the OCI run precedence —
`Cmd` empty / `Entrypoint` non-empty: entrypoint plus the user
arguments; `Cmd` non-empty / `Entrypoint` empty: the user arguments if
present else `Cmd`; both non-empty: entrypoint plus the user arguments
if present else entrypoint plus `Cmd`. -/
def ociRunSpec (ep cmd args : List Chars) : List Chars :=
  if cmd = [] ∧ ep ≠ [] then ep ++ args
  else if cmd ≠ [] ∧ ep = [] then (if args ≠ [] then args else cmd)
  else ep ++ (if args ≠ [] then args else cmd)

/-- A character that needs no quoting or escaping in any of the shell
evaluation contexts the runscript uses. -/
def safeChar (c : Char) : Bool :=
  ¬ (c = ' ' ∨ c = '\t' ∨ c = '\n' ∨ c = '"' ∨ c = sqChar ∨ c = '\\'
     ∨ c = '$' ∨ c = Char.ofNat 96)

/-- A shell-safe word: non-empty, made of safe characters, and not
option-like (the `set` builtin would parse a leading `-` or `+`). -/
def SafeWord (w : Chars) : Prop :=
  w ≠ [] ∧ (∀ c ∈ w, safeChar c = true) ∧ w.head? ≠ some '-' ∧ w.head? ≠ some '+'

instance (w : Chars) : Decidable (SafeWord w) := by
  unfold SafeWord; infer_instance

/-! ## Gzip auto-detection in `extractArchive`

Translated from `extractArchive` (`conveyorPacker_oci.go`, the
`bufio.NewReader` / `http.DetectContentType` / `gzip.NewReader` /
`tar.NewReader` plumbing).  The sniffing matches the gzip signature of
Go's content-type sniffer (`\x1f\x8b\x08` yields `application/x-gzip`).
In the source, the decompressing reader is bound by `r, err :=
gzip.NewReader(f)` *inside* the `if gzipped` block, shadowing the outer
buffered reader; `tar.NewReader(r)` after the block therefore always
receives the original (still compressed) stream. -/

/-- Gzip detection: `strings.Contains(http.DetectContentType(header),
"x-gzip")`, where the sniffer reports `application/x-gzip` exactly for
streams beginning with the gzip signature bytes. -/
def sniffGzip (s : List Nat) : Bool := s.take 3 = [31, 139, 8]

/-- The byte stream handed to `tar.NewReader`.  The gzip branch of the
source constructs a decompressing reader, but binds it to a variable
scoped to the `if` block, so the stream given to the tar decoder is the
raw input in both branches. -/
def tarStreamInput (src : List Nat) : List Nat :=
  let gzipped := sniffGzip src
  if gzipped then
    -- inner short-variable declaration shadows the outer reader
    src
  else src

/-- A concrete gzip member (mtime 0) whose decompressed content is the
empty tar archive `emptyTarBytes`; 45 bytes. -/
def gzEmptyTar : List Nat :=
  [31, 139, 8, 0, 0, 0, 0, 0, 2, 255, 237, 193, 1, 13, 0, 0, 0, 194, 160,
   247, 79, 109, 14, 55, 160, 0, 0, 0, 0, 0, 0, 0, 0, 0, 128, 55, 3, 154,
   222, 29, 39, 0, 40, 0, 0]

/-- The uncompressed empty tar archive: 10240 zero bytes (two zero
blocks of end-of-archive plus blocking padding). -/
def emptyTarBytes : List Nat := List.replicate 10240 0

/-- Go's `tar.Reader.Next` reads a full 512-byte header block; a
non-empty stream shorter than that fails the first header read with a
truncation error instead of yielding any entry. -/
def tarHeaderTruncated (s : List Nat) : Bool :=
  decide (s ≠ []) && decide (s.length < 512)

/-! ## Filesystem model

Shared by the scaffold builder (`base_environment.go`) and the tar
extractor.  Paths are byte strings; the filesystem is an association
list from paths to entries.  Symlink resolution follows the chain with
the kernel's 40-link bound; a relative link target is resolved against
the directory of the link. -/

/-- A filesystem path. -/
abbrev Path := Chars

/-- A filesystem entry.  `chmodDenied` marks an entry on which a
`chmod` call fails (for instance on a read-only filesystem). -/
inductive Entry where
  | dir (mode : Nat) (chmodDenied : Bool)
  | file (content : Chars) (mode : Nat) (chmodDenied : Bool)
  | symlink (target : Path)
  deriving DecidableEq

/-- Filesystem state. -/
abbrev Fs := List (Path × Entry)

/-- Entry at a path (first binding wins). -/
def lookupFs : Fs → Path → Option Entry
  | [], _ => none
  | (q, e) :: r, p => if q = p then some e else lookupFs r p

/-- Write an entry: replace the first binding at the path, else append. -/
def setFs : Fs → Path → Entry → Fs
  | [], p, e => [(p, e)]
  | (q, e0) :: r, p, e => if q = p then (q, e) :: r else (q, e0) :: setFs r p e

/-- Characters of `p` before its last slash (the directory of `p`). -/
def dropAfterSlashRev : Chars → Chars
  | [] => []
  | c :: cs => if c = '/' then cs else dropAfterSlashRev cs

/-- Directory part of a path. -/
def parentDir (p : Path) : Path := (dropAfterSlashRev p.reverse).reverse

/-- Join a directory and a relative path with a slash. -/
def joinP (a b : Path) : Path := a ++ '/' :: b

/-- Follow symlinks from a path, up to `fuel` hops; returns the final
path (which may not exist — creation through a dangling link lands
there), or `none` when the link chain is too long. -/
def resolveFs (fs : Fs) : Nat → Path → Option Path
  | 0, _ => none
  | fuel + 1, p =>
    match lookupFs fs p with
    | some (.symlink t) => resolveFs fs fuel (joinP (parentDir p) t)
    | _ => some p

/-- `os.Stat`: follow symlinks, then read the entry. -/
def statFs (fs : Fs) (p : Path) : Option Entry :=
  match resolveFs fs 40 p with
  | some q => lookupFs fs q
  | none => none

/-- Permission bits of an entry. -/
def entryMode : Entry → Nat
  | .dir m _ => m
  | .file _ m _ => m
  | .symlink _ => 0o777

/-- Symlink target of an entry, if it is a symlink. -/
def entrySym : Entry → Option Path
  | .symlink t => some t
  | _ => none

/-- Whether an entry is a symlink. -/
def entryIsSymlink (e : Entry) : Bool := (entrySym e).isSome

/-- A filesystem without any symlink entries. -/
def NoSymlinks (fs : Fs) : Prop := ∀ pe ∈ fs, entryIsSymlink pe.2 = false

/-- Filesystem error conditions. -/
inductive FsErr where
  | noEnt | eexist | notDir | isDir | eperm | eloop
  | illegalPath (target : Path)
  deriving DecidableEq

/-- `os.Chmod`: follow symlinks, fail on a missing entry or a denied
permission change, else replace the permission bits in place. -/
def chmodFs (fs : Fs) (p : Path) (m : Nat) : Except FsErr Fs :=
  match resolveFs fs 40 p with
  | none => .error .eloop
  | some q =>
    match lookupFs fs q with
    | none => .error .noEnt
    | some (.dir _ d) => if d then .error .eperm else .ok (setFs fs q (.dir m d))
    | some (.file c _ d) => if d then .error .eperm else .ok (setFs fs q (.file c m d))
    | some (.symlink _) => .error .eloop

/-! ## Scaffold builder (`makeBaseEnv`) -/
/-- Content constant `execFileContent` from the scaffold sources. -/
def execFileContent : Chars :=
  "#!/bin/sh\n\nfor script in /.apptainer.d/env/*.sh; do\n    if [ -f \"$script\" ]; then\n        . \"$script\"\n    fi\ndone\n\nexec \"$@\"\n".data

/-- Content constant `runFileContent` from the scaffold sources. -/
def runFileContent : Chars :=
  "#!/bin/sh\n\nfor script in /.apptainer.d/env/*.sh; do\n    if [ -f \"$script\" ]; then\n        . \"$script\"\n    fi\ndone\n\nif test -n \"$\x7bAPPTAINER_APPNAME:-\x7d\"; then\n\n    if test -x \"/scif/apps/$\x7bAPPTAINER_APPNAME:-\x7d/scif/runscript\"; then\n        exec \"/scif/apps/$\x7bAPPTAINER_APPNAME:-\x7d/scif/runscript\" \"$@\"\n    else\n        echo \"No Apptainer runscript for contained app: $\x7bAPPTAINER_APPNAME:-\x7d\"\n        exit 1\n    fi\n\nelif test -x \"/.apptainer.d/runscript\"; then\n    exec \"/.apptainer.d/runscript\" \"$@\"\nelse\n    echo \"No Apptainer runscript found, executing /bin/sh\"\n    exec /bin/sh \"$@\"\nfi\n".data

/-- Content constant `shellFileContent` from the scaffold sources. -/
def shellFileContent : Chars :=
  "#!/bin/sh\n\nfor script in /.apptainer.d/env/*.sh; do\n    if [ -f \"$script\" ]; then\n        . \"$script\"\n    fi\ndone\n\nif test -n \"$APPTAINER_SHELL\" -a -x \"$APPTAINER_SHELL\"; then\n    exec $APPTAINER_SHELL \"$@\"\n\n    echo \"ERROR: Failed running shell as defined by \x27\\$APPTAINER_SHELL\x27\" 1>&2\n    exit 1\n\nelif test -x /bin/bash; then\n    SHELL=/bin/bash\n    PS1=\"Apptainer $APPTAINER_NAME:\\\\w> \"\n    export SHELL PS1\n    exec /bin/bash --norc \"$@\"\nelif test -x /bin/sh; then\n    SHELL=/bin/sh\n    export SHELL\n    exec /bin/sh \"$@\"\nelse\n    echo \"ERROR: /bin/sh does not exist in container\" 1>&2\nfi\nexit 1\n".data

/-- Content constant `startFileContent` from the scaffold sources. -/
def startFileContent : Chars :=
  "#!/bin/sh\n\n# if we are here start notify PID 1 to continue\n# DON\x27T REMOVE\nkill -CONT 1\n\nfor script in /.apptainer.d/env/*.sh; do\n    if [ -f \"$script\" ]; then\n        . \"$script\"\n    fi\ndone\n\nif test -x \"/.apptainer.d/startscript\"; then\n    exec \"/.apptainer.d/startscript\"\nfi\n".data

/-- Content constant `testFileContent` from the scaffold sources. -/
def testFileContent : Chars :=
  "#!/bin/sh\n\nfor script in /.apptainer.d/env/*.sh; do\n    if [ -f \"$script\" ]; then\n        . \"$script\"\n    fi\ndone\n\n\nif test -n \"$\x7bAPPTAINER_APPNAME:-\x7d\"; then\n\n    if test -x \"/scif/apps/$\x7bAPPTAINER_APPNAME:-\x7d/scif/test\"; then\n        exec \"/scif/apps/$\x7bAPPTAINER_APPNAME:-\x7d/scif/test\" \"$@\"\n    else\n        echo \"No tests for contained app: $\x7bAPPTAINER_APPNAME:-\x7d\"\n        exit 1\n    fi\nelif test -x \"/.apptainer.d/test\"; then\n    exec \"/.apptainer.d/test\" \"$@\"\nelse\n    echo \"No test found in container, executing /bin/sh -c true\"\n    exec /bin/sh -c true\nfi\n".data

/-- Content constant `baseShFileContent` from the scaffold sources. -/
def baseShFileContent : Chars :=
  "#!/bin/sh\n# \n# Copyright (c) 2017, ApptainerWare, LLC. All rights reserved.\n# Copyright (c) 2015-2017, Gregory M. Kurtzer. All rights reserved.\n# \n# Copyright (c) 2016-2017, The Regents of the University of California,\n# through Lawrence Berkeley National Laboratory (subject to receipt of any\n# required approvals from the U.S. Dept. of Energy).  All rights reserved.\n# \n# This software is licensed under a customized 3-clause BSD license.  Please\n# consult LICENSE.md file distributed with the sources of this project regarding\n# your rights to use or distribute this software.\n# \n# NOTICE.  This Software was developed under funding from the U.S. Department of\n# Energy and the U.S. Government consequently retains certain rights. As such,\n# the U.S. Government has been granted for itself and others acting on its\n# behalf a paid-up, nonexclusive, irrevocable, worldwide license in the Software\n# to reproduce, distribute copies to the public, prepare derivative works, and\n# perform publicly and display publicly, and to permit other to do so.\n# \n# \n\n\n".data

/-- Content constant `environmentShFileContent` from the scaffold sources. -/
def environmentShFileContent : Chars :=
  "#!/bin/sh\n# Custom environment shell code should follow\n\n".data

/-- Content constant `appsShFileContent` from the scaffold sources. -/
def appsShFileContent : Chars :=
  "#!/bin/sh\n#\n# Copyright (c) 2017, ApptainerWare, LLC. All rights reserved.\n#\n# See the COPYRIGHT.md file at the top-level directory of this distribution and at\n# https://github.com/apptainer/apptainer/blob/master/COPYRIGHT.md.\n#\n# This file is part of the Apptainer Linux container project. It is subject to the license\n# terms in the LICENSE.md file found in the top-level directory of this distribution and\n# at https://github.com/apptainer/apptainer/blob/master/LICENSE.md. No part\n# of Apptainer, including this file, may be copied, modified, propagated, or distributed\n# except according to the terms contained in the LICENSE.md file.\n\n\nif test -n \"$\x7bAPPTAINER_APPNAME:-\x7d\"; then\n\n    # The active app should be exported\n    export APPTAINER_APPNAME\n\n    if test -d \"/scif/apps/$\x7bAPPTAINER_APPNAME:-\x7d/\"; then\n        SCIF_APPS=\"/scif/apps\"\n        SCIF_APPROOT=\"/scif/apps/$\x7bAPPTAINER_APPNAME:-\x7d\"\n        export SCIF_APPROOT SCIF_APPS\n        PATH=\"/scif/apps/$\x7bAPPTAINER_APPNAME:-\x7d:$PATH\"\n\n        # Automatically add application bin to path\n        if test -d \"/scif/apps/$\x7bAPPTAINER_APPNAME:-\x7d/bin\"; then\n            PATH=\"/scif/apps/$\x7bAPPTAINER_APPNAME:-\x7d/bin:$PATH\"\n        fi\n\n        # Automatically add application lib to LD_LIBRARY_PATH\n        if test -d \"/scif/apps/$\x7bAPPTAINER_APPNAME:-\x7d/lib\"; then\n            LD_LIBRARY_PATH=\"/scif/apps/$\x7bAPPTAINER_APPNAME:-\x7d/lib:$LD_LIBRARY_PATH\"\n            export LD_LIBRARY_PATH\n        fi\n\n        # Automatically source environment\n        if [ -f \"/scif/apps/$\x7bAPPTAINER_APPNAME:-\x7d/scif/env/01-base.sh\" ]; then\n            . \"/scif/apps/$\x7bAPPTAINER_APPNAME:-\x7d/scif/env/01-base.sh\"\n        fi\n        if [ -f \"/scif/apps/$\x7bAPPTAINER_APPNAME:-\x7d/scif/env/90-environment.sh\" ]; then\n            . \"/scif/apps/$\x7bAPPTAINER_APPNAME:-\x7d/scif/env/90-environment.sh\"\n        fi\n\n        export PATH\n    else\n        echo \"Could not locate the container application: $\x7bAPPTAINER_APPNAME\x7d\"\n        exit 1\n    fi\nfi\n\n".data

/-- Content constant `base99ShFileContent` from the scaffold sources. -/
def base99ShFileContent : Chars :=
  "#!/bin/sh\n# \n# Copyright (c) 2017, ApptainerWare, LLC. All rights reserved.\n# Copyright (c) 2015-2017, Gregory M. Kurtzer. All rights reserved.\n# \n# Copyright (c) 2016-2017, The Regents of the University of California,\n# through Lawrence Berkeley National Laboratory (subject to receipt of any\n# required approvals from the U.S. Dept. of Energy).  All rights reserved.\n# \n# This software is licensed under a customized 3-clause BSD license.  Please\n# consult LICENSE.md file distributed with the sources of this project regarding\n# your rights to use or distribute this software.\n# \n# NOTICE.  This Software was developed under funding from the U.S. Department of\n# Energy and the U.S. Government consequently retains certain rights. As such,\n# the U.S. Government has been granted for itself and others acting on its\n# behalf a paid-up, nonexclusive, irrevocable, worldwide license in the Software\n# to reproduce, distribute copies to the public, prepare derivative works, and\n# perform publicly and display publicly, and to permit other to do so.\n# \n# \n\n\nif [ -z \"$LD_LIBRARY_PATH\" ]; then\n    LD_LIBRARY_PATH=\"/.apptainer.d/libs\"\nelse\n    LD_LIBRARY_PATH=\"$LD_LIBRARY_PATH:/.apptainer.d/libs\"\nfi\n\nPS1=\"Apptainer> \"\nexport LD_LIBRARY_PATH PS1\n".data

/-- Content constant `base99runtimevarsShFileContent` from the scaffold sources. -/
def base99runtimevarsShFileContent : Chars :=
  "#!/bin/sh\n# Copyright (c) 2017-2019, Sylabs, Inc. All rights reserved.\n#\n# This software is licensed under a customized 3-clause BSD license.  Please\n# consult LICENSE.md file distributed with the sources of this project regarding\n# your rights to use or distribute this software.\n#\n#\n\nif [ -n \"$\x7bSING_USER_DEFINED_PREPEND_PATH:-\x7d\" ]; then\n\tPATH=\"$\x7bSING_USER_DEFINED_PREPEND_PATH\x7d:$\x7bPATH\x7d\"\nfi\n\nif [ -n \"$\x7bSING_USER_DEFINED_APPEND_PATH:-\x7d\" ]; then\n\tPATH=\"$\x7bPATH\x7d:$\x7bSING_USER_DEFINED_APPEND_PATH\x7d\"\nfi\n\nif [ -n \"$\x7bSING_USER_DEFINED_PATH:-\x7d\" ]; then\n\tPATH=\"$\x7bSING_USER_DEFINED_PATH\x7d\"\nfi\n\nunset SING_USER_DEFINED_PREPEND_PATH \\\n\t  SING_USER_DEFINED_APPEND_PATH \\\n\t  SING_USER_DEFINED_PATH\n\nexport PATH\n".data

/-- Content constant `runscriptFileContent` from the scaffold sources. -/
def runscriptFileContent : Chars :=
  "#!/bin/sh\n\necho \"There is no runscript defined for this container\\n\";\n".data

/-- Content constant `startscriptFileContent` from the scaffold sources. -/
def startscriptFileContent : Chars :=
  "#!/bin/sh\n".data


/-- Error wrapping of `makeBaseEnv`: each step annotates its failure
(`fmt.Errorf("build: failed to ...")`). -/
inductive BuildErr where
  | statRoot
  | chmodRoot (e : FsErr)
  | dirs (e : FsErr)
  | links (e : FsErr)
  | files (e : FsErr)
  deriving DecidableEq

/-- One level of `os.MkdirAll` whose parent already exists: keep an
existing directory, fail on an existing non-directory, create when
absent (mode 0o755), fail `EEXIST` when `Stat` fails but the path is
occupied (a dangling symlink). -/
def ensureDir (fs : Fs) (q : Path) : Except FsErr Fs :=
  match statFs fs q with
  | some (.dir _ _) => .ok fs
  | some _ => .error .notDir
  | none =>
    match lookupFs fs q with
    | none => .ok (setFs fs q (.dir 0o755 false))
    | some _ => .error .eexist

/-- The cumulative relative prefixes of a component list: for
`[a, b]` the paths `a` and `a/b`. -/
def relPrefixes : List Chars → List Path
  | [] => []
  | c :: cs => c :: (relPrefixes cs).map (joinP c)

/-- `os.MkdirAll(filepath.Join(root, comps...), 0o755)` for a `root`
that was already stat-ed: ensure the root and then every cumulative
prefix. -/
def mkdirAllRel (root : Path) (comps : List Chars) (fs : Fs) : Except FsErr Fs :=
  (root :: (relPrefixes comps).map (joinP root)).foldlM ensureDir fs

/-- The directory skeleton created by `makeDirs`, in source order. -/
def scaffoldDirs : List (List Chars) :=
  [[".apptainer.d".data, "libs".data],
   [".apptainer.d".data, "actions".data],
   [".apptainer.d".data, "env".data],
   ["dev".data],
   ["proc".data],
   ["root".data],
   ["var".data, "tmp".data],
   ["tmp".data],
   ["etc".data],
   ["sys".data],
   ["home".data]]

/-- `makeDirs`: create the fixed directory skeleton. -/
def makeDirs (root : Path) (fs : Fs) : Except FsErr Fs :=
  scaffoldDirs.foldlM (fun fs comps => mkdirAllRel root comps fs) fs

/-- The symlink skeleton of `makeSymlinks`: (link target, link name
relative to the rootfs), in source order. -/
def scaffoldLinks : List (Path × Path) :=
  [(".apptainer.d/runscript".data, "apptainer".data),
   (".apptainer.d/actions/run".data, ".run".data),
   (".apptainer.d/actions/exec".data, ".exec".data),
   (".apptainer.d/actions/test".data, ".test".data),
   (".apptainer.d/actions/shell".data, ".shell".data),
   (".apptainer.d/env/90-environment.sh".data, "environment".data)]

/-- One step of `makeSymlinks`: skip when `os.Stat` (following the
link) succeeds, else try `os.Symlink`, which fails `EEXIST` when the
path is occupied. -/
def makeLink (root : Path) (fs : Fs) (tl : Path × Path) : Except FsErr Fs :=
  match statFs fs (joinP root tl.2) with
  | some _ => .ok fs
  | none =>
    match lookupFs fs (joinP root tl.2) with
    | none => .ok (setFs fs (joinP root tl.2) (.symlink tl.1))
    | some _ => .error .eexist

/-- `makeSymlinks`: create the fixed symlink skeleton, only for links
whose stat fails. -/
def makeSymlinks (root : Path) (fs : Fs) : Except FsErr Fs :=
  scaffoldLinks.foldlM (makeLink root) fs

/-- `fs.IsFile`: stat succeeds and yields a regular file. -/
def isFileFs (fs : Fs) (p : Path) : Bool :=
  match statFs fs p with
  | some (.file _ _ _) => true
  | _ => false

/-- `os.OpenFile(name, O_WRONLY|O_CREATE|O_TRUNC, perm)` followed by
writing `content`: truncate and rewrite an existing file keeping its
mode, create a fresh file (mode `perm`) when absent and the parent
directory exists. -/
def openTruncWrite (fs : Fs) (p : Path) (perm : Nat) (content : Chars) :
    Except FsErr Fs :=
  match resolveFs fs 40 p with
  | none => .error .eloop
  | some q =>
    match lookupFs fs q with
    | some (.file _ m d) => .ok (setFs fs q (.file content m d))
    | some (.dir _ _) => .error .isDir
    | some (.symlink _) => .error .eloop
    | none =>
      match statFs fs (parentDir q) with
      | some (.dir _ _) => .ok (setFs fs q (.file content perm false))
      | _ => .error .noEnt

/-- `makeFile`: chmod an existing file to the requested mode first
(issue 4532), then create/truncate and write the content. -/
def makeFile (fs : Fs) (name : Path) (perm : Nat) (content : Chars) :
    Except FsErr Fs := do
  let fs ← if isFileFs fs name then chmodFs fs name perm else .ok fs
  openTruncWrite fs name perm content

/-- The files written by `makeFiles`: (path relative to the rootfs,
mode, content), in source order. -/
def scaffoldFiles : List (Path × Nat × Chars) :=
  [("etc/hosts".data, 0o644, []),
   ("etc/resolv.conf".data, 0o644, []),
   (".apptainer.d/actions/exec".data, 0o755, execFileContent),
   (".apptainer.d/actions/run".data, 0o755, runFileContent),
   (".apptainer.d/actions/shell".data, 0o755, shellFileContent),
   (".apptainer.d/actions/start".data, 0o755, startFileContent),
   (".apptainer.d/actions/test".data, 0o755, testFileContent),
   (".apptainer.d/env/01-base.sh".data, 0o755, baseShFileContent),
   (".apptainer.d/env/90-environment.sh".data, 0o755, environmentShFileContent),
   (".apptainer.d/env/95-apps.sh".data, 0o755, appsShFileContent),
   (".apptainer.d/env/99-base.sh".data, 0o755, base99ShFileContent),
   (".apptainer.d/env/99-runtimevars.sh".data, 0o755, base99runtimevarsShFileContent),
   (".apptainer.d/runscript".data, 0o755, runscriptFileContent),
   (".apptainer.d/startscript".data, 0o755, startscriptFileContent)]

/-- `makeFiles`: write every scaffold file. -/
def makeFiles (root : Path) (fs : Fs) : Except FsErr Fs :=
  scaffoldFiles.foldlM (fun fs f => makeFile fs (joinP root f.1) f.2.1 f.2.2) fs

/-- First step of `makeBaseEnv`: stat the rootfs path and add the owner
write bit when it is missing. -/
def ensureRootWritable (root : Path) (fs : Fs) : Except BuildErr Fs :=
  match statFs fs root with
  | none => .error .statRoot
  | some e =>
    if entryMode e &&& 0o200 == 0 then
      match chmodFs fs root (entryMode e ||| 0o200) with
      | .ok fs => .ok fs
      | .error er => .error (.chmodRoot er)
    else .ok fs

/-- The directory, symlink and file phases of `makeBaseEnv`, each
wrapping its failure. -/
def scaffoldPhases (root : Path) (fs : Fs) : Except BuildErr Fs := do
  let fs ← (makeDirs root fs).mapError BuildErr.dirs
  let fs ← (makeSymlinks root fs).mapError BuildErr.links
  (makeFiles root fs).mapError BuildErr.files

/-- `makeBaseEnv`: ensure the rootfs is writable, then build the
directory, symlink and file scaffold, aborting on the first failure. -/
def makeBaseEnv (root : Path) (fs : Fs) : Except BuildErr Fs := do
  let fs ← ensureRootWritable root fs
  scaffoldPhases root fs

/-- All cumulative directory paths `makeDirs` may create. -/
def scaffoldDirPaths (root : Path) : List Path :=
  scaffoldDirs.flatMap (fun comps => (relPrefixes comps).map (joinP root))

/-- The six symlink paths. -/
def linkPaths (root : Path) : List Path :=
  scaffoldLinks.map (fun tl => joinP root tl.2)

/-- The scaffold file paths. -/
def scaffoldFilePaths (root : Path) : List Path :=
  scaffoldFiles.map (fun f => joinP root f.1)

/-- The filesystem shape guaranteed after a successful `makeBaseEnv`
run on a symlink-free filesystem: a writable root directory, the
directory skeleton, stat-able symlink paths and the scaffold files with
their fixed content and mode. -/
def Scaffolded (root : Path) (fs : Fs) : Prop :=
  (∃ m d, lookupFs fs root = some (.dir m d) ∧ m &&& 0o200 ≠ 0)
  ∧ (∀ q ∈ scaffoldDirPaths root, ∃ m d, lookupFs fs q = some (.dir m d))
  ∧ (∀ tl ∈ scaffoldLinks, statFs fs (joinP root tl.2) ≠ none)
  ∧ (∀ f ∈ scaffoldFiles, lookupFs fs (joinP root f.1) = some (.file f.2.2 f.2.1 false))

/-! ## Tar extraction (`extractArchive`) -/

/-- A decoded tar entry header plus its byte stream. -/
structure TarEntry where
  name : Chars
  typeflag : Nat
  mode : Nat
  content : Chars
  deriving DecidableEq

/-- `tar.TypeDir`. -/
def typeDir : Nat := 53

/-- `tar.TypeReg`. -/
def typeReg : Nat := 48

/-- Split a path at slashes, keeping empty components. -/
def splitSlash : Chars → List Chars
  | [] => [[]]
  | c :: cs =>
    if c = '/' then [] :: splitSlash cs
    else
      match splitSlash cs with
      | [] => [[c]]
      | w :: ws => (c :: w) :: ws

/-- The component stack of Go `filepath.Clean`: drop empty and `.`
components; on `..` pop a non-`..` component, drop it at an absolute
root, or keep it in a relative path. -/
def cleanStack (rooted : Bool) : List Chars → List Chars → List Chars
  | acc, [] => acc.reverse
  | acc, c :: rest =>
    if c = [] ∨ c = ['.'] then cleanStack rooted acc rest
    else if c = ['.', '.'] then
      match acc with
      | [] => if rooted then cleanStack rooted [] rest else cleanStack rooted [['.', '.']] rest
      | top :: acc' =>
        if top = ['.', '.'] then cleanStack rooted (c :: acc) rest
        else cleanStack rooted acc' rest
    else cleanStack rooted (c :: acc) rest

/-- Go `filepath.Clean` for slash-separated paths. -/
def goClean (p : Path) : Path :=
  if p = [] then ['.']
  else
    let rooted := p.head? = some '/'
    let comps := cleanStack rooted [] (splitSlash p)
    let body := (comps.intersperse ['/']).flatten
    if rooted then '/' :: body
    else if body = [] then ['.']
    else body

/-- Go `filepath.Join` on two elements: empty elements are dropped, the
rest are joined with a slash and cleaned. -/
def goJoin (a b : Path) : Path :=
  if a = [] then (if b = [] then [] else goClean b)
  else if b = [] then goClean a
  else goClean (a ++ '/' :: b)

/-- The target path of an entry:
`filepath.Join(dst, header.Name)`. -/
def extractTarget (dst : Path) (e : TarEntry) : Path := goJoin dst e.name

/-- The Zip-Slip guard of `extractArchive`:
`strings.HasPrefix(target, filepath.Clean(dst) + "/")` must hold. -/
def insideDst (dst target : Path) : Bool :=
  (goClean dst ++ ['/']).isPrefixOf target

/-- Boundary prefixes of a path: every proper prefix ending just before
a slash. -/
def bps (p : Path) : List Path :=
  (List.range p.length).filterMap
    (fun i => if p[i]? = some '/' then some (p.take i) else none)

/-- `os.MkdirAll` on a full target path: walk the boundary prefixes
(shortest first) and the path itself, keeping partial creations on
failure. -/
def mkdirAllP (fs : Fs) (target : Path) : Fs × Option FsErr :=
  (bps target ++ [target]).foldl
    (fun st q =>
      match st.2 with
      | some _ => st
      | none =>
        match ensureDir st.1 q with
        | .ok fs2 => (fs2, none)
        | .error e => (st.1, some e))
    (fs, none)

/-- The overlay write of `O_CREATE|O_RDWR` without `O_TRUNC`: the new
bytes overwrite the head of the old content, the tail beyond the new
length survives. -/
def overlayWrite (newc oldc : Chars) : Chars := newc ++ oldc.drop newc.length

/-- `os.OpenFile(target, O_CREATE|O_RDWR, mode)` followed by
`io.Copy`: overlay an existing file's content keeping its mode, or
create a fresh file when absent and the parent directory exists. -/
def openCreateWrite (fs : Fs) (p : Path) (perm : Nat) (content : Chars) :
    Except FsErr Fs :=
  match resolveFs fs 40 p with
  | none => .error .eloop
  | some q =>
    match lookupFs fs q with
    | some (.file oldc m d) => .ok (setFs fs q (.file (overlayWrite content oldc) m d))
    | some (.dir _ _) => .error .isDir
    | some (.symlink _) => .error .eloop
    | none =>
      match statFs fs (parentDir q) with
      | some (.dir _ _) => .ok (setFs fs q (.file content perm false))
      | _ => .error .noEnt

/-- Processing of a single archive entry by the extraction loop:
Zip-Slip check, then directory creation (only when stat fails), regular
file write, and silent skip of any other entry type. -/
def extractEntry (dst : Path) (fs : Fs) (e : TarEntry) : Fs × Option FsErr :=
  let target := extractTarget dst e
  if ¬ insideDst dst target then (fs, some (.illegalPath target))
  else if e.typeflag = typeDir then
    match statFs fs target with
    | some _ => (fs, none)
    | none => mkdirAllP fs target
  else if e.typeflag = typeReg then
    match openCreateWrite fs target e.mode e.content with
    | .ok fs2 => (fs2, none)
    | .error er => (fs, some er)
  else (fs, none)

/-- Extraction result: the filesystem (with any partial writes) and the
error that stopped the loop, if any. -/
structure ExRes where
  fs : Fs
  err : Option FsErr
  deriving DecidableEq

/-- The extraction loop of `extractArchive` over the decoded entries:
end of stream is success, the first failing entry stops the loop. -/
def extractEntries (dst : Path) : List TarEntry → Fs → ExRes
  | [], fs => ⟨fs, none⟩
  | e :: rest, fs =>
    match extractEntry dst fs e with
    | (fs2, none) => extractEntries dst rest fs2
    | (fs2, some er) => ⟨fs2, some er⟩

/-- Destination readiness: the cleaned destination directory and all
its ancestors exist (the extraction destination is a freshly created
temporary directory). -/
def dstReady (fs : Fs) (dst : Path) : Prop :=
  (∀ q ∈ bps (goClean dst), lookupFs fs q ≠ none)
  ∧ lookupFs fs (goClean dst) ≠ none

/-- Helper: whether an `Except` result is a success. -/
def isOkE {e a : Type} (r : Except e a) : Bool :=
  match r with
  | .ok _ => true
  | .error _ => false

/-! ## Concrete demonstration states -/

/-- Demonstration rootfs path. -/
def demoRoot : Path := "/b".data

/-- A bare writable rootfs directory. -/
def demoFs0 : Fs := [("/b".data, Entry.dir 0o755 false)]

/-- A rootfs whose mode lacks the owner-write bit. -/
def demoFsRo : Fs := [("/b".data, Entry.dir 0o555 false)]

/-- A rootfs without owner-write on which `chmod` fails. -/
def demoFsDenied : Fs := [("/b".data, Entry.dir 0o555 true)]

/-- A rootfs with a pre-existing symlink at the `apptainer` scaffold
path whose target `dev` does not exist before the run but is created by
`makeDirs`. -/
def demoFsDangling : Fs :=
  [("/b".data, Entry.dir 0o755 false),
   ("/b/apptainer".data, Entry.symlink "dev".data)]

/-- The filesystem produced by the first `makeBaseEnv` run on
`demoFs0`. -/
def demoFs1 : Fs :=
  match makeBaseEnv demoRoot demoFs0 with
  | .ok f => f
  | .error _ => []

/-- Demonstration extraction destination. -/
def exDst : Path := "/d".data

/-- A ready extraction destination: the root directory and the
destination itself. -/
def exFs0 : Fs := [([], Entry.dir 0o755 false), ("/d".data, Entry.dir 0o755 false)]

/-- The destination with a pre-existing four-byte file at `/d/f`. -/
def exFsFile : Fs := exFs0 ++ [("/d/f".data, Entry.file "wxyz".data 0o644 false)]


end Apptainer

namespace Apptainer

/-! ### Helper lemmas for the association-list environment -/

theorem lookupE_unsetE (e : Env) (k q : String) :
    lookupE (unsetE e k) q = if q = k then none else lookupE e q := by
  induction e with
  | nil => simp [unsetE, lookupE]
  | cons b r ih =>
    obtain ⟨k0, v0⟩ := b
    by_cases h0 : k0 = k
    · subst h0
      by_cases hq : q = k0
      · simp [unsetE, lookupE, hq] at ih ⊢
        exact ih
      · simp [unsetE, lookupE, hq, show ¬ k0 = q from fun h => hq h.symm] at ih ⊢
        exact ih
    · by_cases hq : k0 = q
      · have hqk : ¬ q = k := fun h => h0 (hq.trans h)
        simp [unsetE, lookupE, h0, hq, hqk]
      · simp [unsetE, lookupE, h0, hq] at ih ⊢
        exact ih

theorem lookupE_setE (e : Env) (k q : String) (v : String) :
    lookupE (setE e k v) q = if q = k then some v else lookupE e q := by
  induction e with
  | nil =>
    simp [setE, lookupE]
    by_cases hq : q = k
    · simp [hq]
    · simp [hq, show ¬ k = q from fun h => hq h.symm]
  | cons b r ih =>
    obtain ⟨k0, v0⟩ := b
    by_cases h0 : k0 = k
    · subst h0
      by_cases hq : q = k0
      · simp [setE, lookupE, hq]
      · simp [setE, lookupE, hq, show ¬ k0 = q from fun h => hq h.symm]
    · by_cases hq : k0 = q
      · have hqk : ¬ q = k := fun h => h0 (hq.trans h)
        simp [setE, lookupE, h0, hq, hqk]
      · simp [setE, lookupE, h0, hq] at ih ⊢
        exact ih

theorem clearEnv_cons (b : String × String) (T : Env) (env : Env) :
    clearEnv (b :: T) env =
      clearEnv T
        (if b.1 ∈ allowKeys then env
         else if b.1 ∈ roKeys then env
         else unsetE env b.1) := by
  simp [clearEnv]

theorem clearEnv_append (A B : Env) (env : Env) :
    clearEnv (A ++ B) env = clearEnv B (clearEnv A env) := by
  simp [clearEnv, List.foldl_append]

theorem restoreEnv_cons (b : String × String) (T : Env) (env : Env) :
    restoreEnv (b :: T) env =
      restoreEnv T
        (match lookupE env b.1 with
         | none => setE env b.1 b.2
         | some x => if x = "" then unsetE env b.1 else env) := by
  simp [restoreEnv]

theorem restoreEnv_append (A B : Env) (env : Env) :
    restoreEnv (A ++ B) env = restoreEnv B (restoreEnv A env) := by
  simp [restoreEnv, List.foldl_append]

theorem clearEnv_lookup_of_not_mem (T : Env) (env : Env) (k : String)
    (h : k ∉ T.map Prod.fst) :
    lookupE (clearEnv T env) k = lookupE env k := by
  induction T generalizing env with
  | nil => simp [clearEnv]
  | cons b T ih =>
    rw [List.map_cons] at h
    obtain ⟨h1, h2⟩ := not_or.mp ((List.mem_cons).not.mp h)
    rw [clearEnv_cons]
    rw [ih _ h2]
    split
    · rfl
    · split
      · rfl
      · rw [lookupE_unsetE]
        simp [h1]

theorem restoreEnv_lookup_of_not_mem (T : Env) (env : Env) (k : String)
    (h : k ∉ T.map Prod.fst) :
    lookupE (restoreEnv T env) k = lookupE env k := by
  induction T generalizing env with
  | nil => simp [restoreEnv]
  | cons b T ih =>
    rw [List.map_cons] at h
    obtain ⟨h1, h2⟩ := not_or.mp ((List.mem_cons).not.mp h)
    rw [restoreEnv_cons]
    rw [ih _ h2]
    rcases hl : lookupE env b.1 with _ | x
    · simp [lookupE_setE, h1]
    · by_cases hx : x = ""
      · simp [hx, lookupE_unsetE, h1]
      · simp [hx]

theorem applyOps_lookup_of_untouched (ops : List EnvOp) (env : Env) (k : String)
    (h : ∀ op ∈ ops, op.key ≠ k) :
    lookupE (applyOps ops env) k = lookupE env k := by
  induction ops generalizing env with
  | nil => simp [applyOps]
  | cons op ops ih =>
    have hop : op.key ≠ k := h op (by simp)
    have hrest : ∀ op ∈ ops, op.key ≠ k := fun o ho => h o (by simp [ho])
    cases op with
    | setv k0 v0 =>
      simp [EnvOp.key] at hop
      rw [show applyOps (.setv k0 v0 :: ops) env = applyOps ops (setE env k0 v0) from rfl]
      rw [ih _ hrest]
      simp [lookupE_setE, show ¬ k = k0 from fun hh => hop hh.symm]
    | unsetv k0 =>
      simp [EnvOp.key] at hop
      rw [show applyOps (.unsetv k0 :: ops) env = applyOps ops (unsetE env k0) from rfl]
      rw [ih _ hrest]
      simp [lookupE_unsetE, show ¬ k = k0 from fun hh => hop hh.symm]

/-- Splitting a snapshot around a binding whose key occurs once. -/
theorem snapshot_split (S : Env) (k v : String)
    (hmem : (k, v) ∈ S) (hnd : (S.map Prod.fst).Nodup) :
    ∃ A B, S = A ++ (k, v) :: B ∧ k ∉ A.map Prod.fst ∧ k ∉ B.map Prod.fst := by
  obtain ⟨A, B, rfl⟩ := List.append_of_mem hmem
  have hnd' : (A.map Prod.fst ++ k :: B.map Prod.fst).Nodup := by simpa using hnd
  obtain ⟨hA, hkB, hdisj⟩ := List.nodup_append.mp hnd'
  refine ⟨A, B, rfl, ?_, ?_⟩
  · intro hmA
    exact hdisj hmA (by simp)
  · exact (List.nodup_cons.mp hkB).1

/-- After the sanitize pass, a key of the snapshot that is neither
allow-listed nor read-only is unset. -/
theorem clearEnv_lookup_cleared (S : Env) (env : Env) (k v : String)
    (hmem : (k, v) ∈ S) (hnd : (S.map Prod.fst).Nodup)
    (ha : k ∉ allowKeys) (hr : k ∉ roKeys) :
    lookupE (clearEnv S env) k = none := by
  obtain ⟨A, B, rfl, _, hB⟩ := snapshot_split S k v hmem hnd
  rw [clearEnv_append, clearEnv_cons]
  rw [clearEnv_lookup_of_not_mem _ _ _ hB]
  simp [ha, hr, lookupE_unsetE]

/-- The restore pass re-exports the captured value of a key that is
unset when restore runs, and unsets a key that is set to the empty
value. -/
theorem restoreEnv_lookup_split (S : Env) (env : Env) (k v : String)
    (hmem : (k, v) ∈ S) (hnd : (S.map Prod.fst).Nodup) :
    (lookupE env k = none → lookupE (restoreEnv S env) k = some v)
    ∧ (lookupE env k = some "" → lookupE (restoreEnv S env) k = none) := by
  obtain ⟨A, B, hS, hA, hB⟩ := snapshot_split S k v hmem hnd
  subst hS
  constructor
  · intro hnone
    rw [restoreEnv_append, restoreEnv_cons]
    rw [restoreEnv_lookup_of_not_mem _ _ _ hB]
    rw [restoreEnv_lookup_of_not_mem _ _ _ hA, hnone]
    simp [lookupE_setE]
  · intro hempty
    rw [restoreEnv_append, restoreEnv_cons]
    rw [restoreEnv_lookup_of_not_mem _ _ _ hB]
    rw [restoreEnv_lookup_of_not_mem _ _ _ hA, hempty]
    simp [lookupE_unsetE]

/-- C4.  A snapshot variable that is neither allow-listed nor read-only
and is not touched by any sourced environment script regains its
original captured value after the restore phase; a snapshot variable
that the sourced scripts leave redefined to the empty value is unset
after the restore phase.  (Snapshot keys are distinct, as produced by
`getallenv`.) -/
theorem clear_restore_env_correct (S : Env) (ops : List EnvOp) (k v : String)
    (hmem : (k, v) ∈ S) (hnd : (S.map Prod.fst).Nodup) :
    (k ∉ allowKeys → k ∉ roKeys → (∀ op ∈ ops, op.key ≠ k) →
      lookupE (bootstrapEnv S ops) k = some v)
    ∧ (lookupE (applyOps ops (clearEnv S S)) k = some "" →
      lookupE (bootstrapEnv S ops) k = none) := by
  constructor
  · intro ha hr hops
    have h1 : lookupE (clearEnv S S) k = none :=
      clearEnv_lookup_cleared S S k v hmem hnd ha hr
    have h2 : lookupE (applyOps ops (clearEnv S S)) k = none := by
      rw [applyOps_lookup_of_untouched _ _ _ hops]; exact h1
    exact (restoreEnv_lookup_split S _ k v hmem hnd).1 h2
  · intro hempty
    exact (restoreEnv_lookup_split S _ k v hmem hnd).2 hempty

/-- Witness for C4: snapshot `X=1, Y=2`; a sourced script redefines `Y`
to the empty value and leaves `X` alone; after restore, `X` is `1` and
`Y` is unset. -/
theorem clear_restore_env_correct_witness :
    lookupE (bootstrapEnv [("X", "1"), ("Y", "2")] [.setv "Y" ""]) "X" = some "1"
    ∧ lookupE (bootstrapEnv [("X", "1"), ("Y", "2")] [.setv "Y" ""]) "Y" = none := by
  constructor
  · exact (clear_restore_env_correct [("X", "1"), ("Y", "2")] [.setv "Y" ""] "X" "1"
      (by decide) (by decide)).1 (by decide) (by decide) (by decide)
  · exact (clear_restore_env_correct [("X", "1"), ("Y", "2")] [.setv "Y" ""] "Y" "2"
      (by decide) (by decide)).2 (by decide)

/-- C9.  Sourcing `99-runtimevars.sh` with only the prepend-PATH
variable set to `/z` prefixes `PATH` with `/z:` and unsets the variable;
sourcing it with none of the three variables set leaves `PATH`
unchanged; after any invocation all three control variables are
unset. -/
theorem runtimevars99_protocol :
    (∀ p : String,
      runtimeVars99 ⟨p, some "/z", none, none⟩ = ⟨"/z:" ++ p, none, none, none⟩)
    ∧ (∀ p : String,
      runtimeVars99 ⟨p, none, none, none⟩ = ⟨p, none, none, none⟩)
    ∧ (∀ s : RtState,
      (runtimeVars99 s).prependPath = none ∧ (runtimeVars99 s).appendPath = none
        ∧ (runtimeVars99 s).overridePath = none) :=
  ⟨fun _ => rfl, fun _ => rfl, fun _ => ⟨rfl, rfl, rfl⟩⟩

/-- C3 counterexample: the entry `FOO=bar` is translated with Go's `%q`
verb, so the emitted line is `export FOO="${FOO:-"bar"}"` (default value
wrapped in quotes), not `export FOO="${FOO:-bar}"` as claimed. -/
theorem insertEnv_line_claim_counterexample :
    insertEnvLine "FOO=bar".data ≠ "export FOO=\"$\x7bFOO:-bar\x7d\"\n".data
    ∧ insertEnvLine "FOO=bar".data = "export FOO=\"$\x7bFOO:-\"bar\"\x7d\"\n".data :=
  ⟨by decide, by decide⟩

/-- One translated line agrees with the amended spec description. -/
theorem insertEnvLine_eq_spec (e : Chars) : insertEnvLine e = envLineSpec e := by
  unfold insertEnvLine envLineSpec
  rcases splitEq e with _ | ⟨k, v⟩
  · rfl
  · by_cases hk : k = "PATH".data
    · simp [hk]
    · simp [hk]

/-- C3 (amended).  `insertEnv` writes the `#!/bin/sh` header and then
one export line per `Env` entry in the original order: a bare `KEY`
yields `export KEY="${KEY:-}"`, `PATH=value` yields the unconditional
`export PATH=<%q of escaped value>` and any other `KEY=value` yields
`export KEY="${KEY:-<%q of escaped value>}"`, where `%q` additionally
wraps the escaped value in double quotes (Go `strconv.Quote`). -/
theorem insertEnv_translation_amended (env : List Chars) :
    insertEnvContent env = "#!/bin/sh\n".data ++ (env.map envLineSpec).flatten := by
  suffices h : ∀ (init : Chars),
      env.foldl (fun acc e => acc ++ insertEnvLine e) init
        = init ++ (env.map envLineSpec).flatten by
    exact h _
  induction env with
  | nil => intro init; simp
  | cons e t ih =>
    intro init
    simp only [List.foldl_cons, List.map_cons, List.flatten_cons]
    rw [ih, insertEnvLine_eq_spec, List.append_assoc]

/-! ### Tokenizer lemmas for the runscript evaluation -/

theorem shellEscape_safe (w : Chars) (h : ∀ c ∈ w, safeChar c = true) :
    shellEscape w = w := by
  induction w with
  | nil => rfl
  | cons c cs ih =>
    have hc := h c (by simp)
    have hcs : ∀ x ∈ cs, safeChar x = true := fun x hx => h x (List.mem_cons_of_mem _ hx)
    simp [safeChar] at hc
    simp [shellEscape, hc.2.2.2.1, hc.2.2.2.2.2.1, hc.2.2.2.2.2.2.1, hc.2.2.2.2.2.2.2,
      ih hcs]

theorem escapeSingleQuotesL_append (x y : Chars) :
    escapeSingleQuotesL (x ++ y) = escapeSingleQuotesL x ++ escapeSingleQuotesL y := by
  induction x with
  | nil => rfl
  | cons c cs ih =>
    by_cases hc : c = sqChar
    · simp [escapeSingleQuotesL, hc, ih]
    · simp [escapeSingleQuotesL, hc, ih]

theorem escapeSingleQuotesL_id (s : Chars) (h : ∀ c ∈ s, c ≠ sqChar) :
    escapeSingleQuotesL s = s := by
  induction s with
  | nil => rfl
  | cons c cs ih =>
    have hc := h c (by simp)
    simp [escapeSingleQuotesL, hc, ih (fun c hcm => h c (by simp [hcm]))]

/-- Under safe words the single-quote escaping layer of the generated
assignment is inert, so the shell variable value is exactly
`argsQuoted`. -/
theorem escapeSingleQuotesL_argsQuoted (ws : List Chars)
    (h : ∀ w ∈ ws, ∀ c ∈ w, safeChar c = true) :
    escapeSingleQuotesL (argsQuoted ws) = argsQuoted ws := by
  apply escapeSingleQuotesL_id
  intro c hc
  induction ws with
  | nil => simp [argsQuoted] at hc
  | cons w ws ih =>
    have hw : shellEscape w = w := shellEscape_safe w (h w (by simp))
    have hwsafe := h w (by simp)
    rcases ws with _ | ⟨w2, ws'⟩
    · simp [argsQuoted, hw] at hc
      rcases hc with hc | hc | hc
      · subst hc; decide
      · have := hwsafe c hc
        simp [safeChar] at this
        exact this.2.2.2.2.1
      · subst hc; decide
    · simp only [argsQuoted, hw] at hc
      rcases List.mem_cons.mp hc with hc1 | hc2
      · subst hc1; decide
      · rcases List.mem_append.mp hc2 with hc3 | hc4
        · have := hwsafe c hc3
          simp [safeChar] at this
          exact this.2.2.2.2.1
        · rcases List.mem_cons.mp hc4 with hc5 | hc6
          · subst hc5; decide
          · rcases List.mem_cons.mp hc6 with hc7 | hc8
            · subst hc7; decide
            · exact ih (fun w hwm => h w (by simp [hwm])) hc8

theorem tokens_space (s : Chars) : tokens (' ' :: s) = tokens s := by
  simp [tokens, tokensAux]

theorem tokensAux_inquote (w : Chars) (rest acc : Chars) (inW : Bool)
    (h : ∀ c ∈ w, c ≠ '"') :
    tokensAux (w ++ '"' :: rest) true acc inW
      = tokensAux rest false (w.reverse ++ acc) inW := by
  induction w generalizing acc with
  | nil => simp [tokensAux]
  | cons c cs ih =>
    have hc : c ≠ '"' := h c (by simp)
    simp only [List.cons_append, tokensAux, if_neg hc, List.append_eq]
    rw [ih _ (fun c hcm => h c (by simp [hcm]))]
    simp

theorem tokensAux_wordend (s acc : Chars)
    (h : s = [] ∨ s.head? = some ' ') :
    tokensAux s false acc true = acc.reverse :: tokens s := by
  rcases h with h | h
  · subst h; simp [tokensAux, tokens]
  · rcases s with _ | ⟨c, r⟩
    · simp at h
    · simp at h
      subst h
      rw [tokens_space]
      simp [tokensAux, tokens]

/-- Tokenizing a quoted argument list followed by a space-separated (or
empty) tail yields the original words followed by the tail's tokens. -/
theorem tokens_argsQuoted (ws : List Chars) (t : Chars)
    (hs : ∀ w ∈ ws, SafeWord w) (hne : ws ≠ [])
    (ht : t = [] ∨ t.head? = some ' ') :
    tokens (argsQuoted ws ++ t) = ws ++ tokens t := by
  induction ws with
  | nil => exact absurd rfl hne
  | cons w ws ih =>
    have hwsafe : ∀ c ∈ w, safeChar c = true := (hs w (by simp)).2.1
    have hwq : ∀ c ∈ w, c ≠ '"' := by
      intro c hc heq
      have := hwsafe c hc
      rw [heq] at this
      simp [safeChar] at this
    have hw : shellEscape w = w := shellEscape_safe w hwsafe
    rcases ws with _ | ⟨w2, ws'⟩
    · show tokens (('"' :: shellEscape w ++ ['"']) ++ t) = [w] ++ tokens t
      rw [hw]
      have : ('"' :: w ++ ['"']) ++ t = '"' :: (w ++ '"' :: t) := by simp
      rw [this]
      show tokensAux ('"' :: (w ++ '"' :: t)) false [] false = [w] ++ tokens t
      rw [show tokensAux ('"' :: (w ++ '"' :: t)) false [] false
            = tokensAux (w ++ '"' :: t) true [] true from by simp [tokensAux]]
      rw [tokensAux_inquote w t [] true hwq]
      rw [tokensAux_wordend t _ ht]
      simp
    · show tokens (('"' :: shellEscape w ++ '"' :: ' ' :: argsQuoted (w2 :: ws')) ++ t)
        = (w :: w2 :: ws') ++ tokens t
      rw [hw]
      have heq : ('"' :: w ++ '"' :: ' ' :: argsQuoted (w2 :: ws')) ++ t
          = '"' :: (w ++ '"' :: (' ' :: (argsQuoted (w2 :: ws') ++ t))) := by simp
      rw [heq]
      show tokensAux _ false [] false = _
      rw [show tokensAux ('"' :: (w ++ '"' :: (' ' :: (argsQuoted (w2 :: ws') ++ t))))
            false [] false
            = tokensAux (w ++ '"' :: (' ' :: (argsQuoted (w2 :: ws') ++ t))) true [] true
          from by simp [tokensAux]]
      rw [tokensAux_inquote w _ [] true hwq]
      rw [tokensAux_wordend _ _ (Or.inr (by simp))]
      rw [show tokens (' ' :: (argsQuoted (w2 :: ws') ++ t))
            = tokens (argsQuoted (w2 :: ws') ++ t) from tokens_space _]
      rw [ih (fun x hx => hs x (by simp [hx])) (by simp) ]
      simp

theorem cmdlineArgs_head (as : List Chars) :
    cmdlineArgs as = [] ∨ (cmdlineArgs as).head? = some ' ' := by
  cases as with
  | nil => left; rfl
  | cons a as => right; simp [cmdlineArgs]

theorem tokens_cmdlineArgs (as : List Chars) (hs : ∀ a ∈ as, SafeWord a) :
    tokens (cmdlineArgs as) = as := by
  induction as with
  | nil => rfl
  | cons a as ih =>
    have hasafe : ∀ c ∈ a, safeChar c = true := (hs a (by simp)).2.1
    have haq : ∀ c ∈ a, c ≠ '"' := by
      intro c hc heq
      have := hasafe c hc
      rw [heq] at this
      simp [safeChar] at this
    have heq : cmdlineArgs (a :: as) = ' ' :: '"' :: (a ++ '"' :: cmdlineArgs as) := by
      simp [cmdlineArgs]
    rw [heq, tokens_space]
    show tokensAux ('"' :: (a ++ '"' :: cmdlineArgs as)) false [] false = a :: as
    rw [show tokensAux ('"' :: (a ++ '"' :: cmdlineArgs as)) false [] false
          = tokensAux (a ++ '"' :: cmdlineArgs as) true [] true from by simp [tokensAux]]
    rw [tokensAux_inquote a _ [] true haq]
    rw [tokensAux_wordend _ _ (cmdlineArgs_head as)]
    rw [ih (fun x hx => hs x (by simp [hx]))]
    simp

/-- C2.  For shell-safe configurations with `Entrypoint` and `Cmd` not
both empty, evaluating the generated runscript executes exactly the
command demanded by the OCI run precedence: `Entrypoint` plus the user
arguments when `Cmd` is empty; the user arguments (else `Cmd`) when
`Entrypoint` is empty; `Entrypoint` plus the user arguments (else
`Entrypoint` plus `Cmd`) when both are non-empty. -/
theorem insertRunScript_oci_precedence (ep cmd args : List Chars)
    (hep : ∀ w ∈ ep, SafeWord w) (hcmd : ∀ w ∈ cmd, SafeWord w)
    (hargs : ∀ w ∈ args, SafeWord w)
    (hne : ¬ (ep = [] ∧ cmd = [])) :
    runscriptArgv ep cmd args = ociRunSpec ep cmd args := by
  unfold runscriptArgv apptainerOciRun ociRunSpec
  by_cases hepe : ep = []
  · have hcmde : cmd ≠ [] := fun h => hne ⟨hepe, h⟩
    simp only [hepe, ociVar, List.isEmpty_nil, if_true, List.isEmpty_eq_true]
    by_cases ha : args = []
    · simp only [ha, ne_eq, not_true_eq_false, if_false, if_neg (by simp : ¬ (([] : List Chars) ≠ []))]
      simp only [List.nil_append, if_neg hcmde]
      rw [tokens_space]
      have : argsQuoted cmd = argsQuoted cmd ++ [] := by simp
      rw [if_neg (by simp [hcmde]), this,
        tokens_argsQuoted cmd [] hcmd hcmde (Or.inl rfl)]
      simp [hcmde, tokens, tokensAux]
    · simp only [ne_eq, ha, not_false_eq_true, if_true, List.nil_append]
      rw [tokens_space, tokens_cmdlineArgs args hargs]
      simp [hcmde, ha]
  · have hepne : ¬ ep.isEmpty = true := by simpa using hepe
    simp only [ociVar, if_neg hepne]
    by_cases ha : args = []
    · by_cases hc : cmd = []
      · simp only [hc, List.isEmpty_nil, if_true, ha]
        simp only [ne_eq, not_true_eq_false, if_false]
        rw [show argsQuoted ep ++ ' ' :: ([] : Chars) = argsQuoted ep ++ [' '] from rfl]
        rw [tokens_argsQuoted ep [' '] hep hepe (Or.inr rfl)]
        rw [show tokens [' '] = tokens [] from tokens_space []]
        simp [hepe, tokens, tokensAux]
      · have hcne : ¬ cmd.isEmpty = true := by simpa using hc
        simp only [if_neg hcne, ha, ne_eq, not_true_eq_false, if_false]
        rw [tokens_argsQuoted ep (' ' :: argsQuoted cmd) hep hepe (Or.inr rfl)]
        rw [tokens_space]
        have : argsQuoted cmd = argsQuoted cmd ++ [] := by simp
        rw [this, tokens_argsQuoted cmd [] hcmd hc (Or.inl rfl)]
        simp [hc, hepe, tokens, tokensAux]
    · simp only [ne_eq, ha, not_false_eq_true, if_true]
      rw [tokens_argsQuoted ep (' ' :: cmdlineArgs args) hep hepe (Or.inr rfl)]
      rw [tokens_space, tokens_cmdlineArgs args hargs]
      by_cases hc : cmd = [] <;> simp [hc, hepe, ha]

/-- Witness for C2: `Entrypoint = ["/bin/echo", "hi"]`, `Cmd = []`; with
no user arguments the script executes `/bin/echo hi`, with argument `x`
it executes `/bin/echo hi x`. -/
theorem insertRunScript_oci_precedence_witness :
    runscriptArgv ["/bin/echo".data, "hi".data] [] [] = ["/bin/echo".data, "hi".data]
    ∧ runscriptArgv ["/bin/echo".data, "hi".data] [] ["x".data]
        = ["/bin/echo".data, "hi".data, "x".data] := by
  constructor
  · rw [insertRunScript_oci_precedence ["/bin/echo".data, "hi".data] [] []
      (by decide) (by decide) (by decide) (by decide)]
    decide
  · rw [insertRunScript_oci_precedence ["/bin/echo".data, "hi".data] [] ["x".data]
      (by decide) (by decide) (by decide) (by decide)]
    decide

/-! ### Bit arithmetic and resolution helpers -/

theorem or_write_testBit (m b : Nat) (hb : b ≠ 7) :
    (m ||| 0o200).testBit b = m.testBit b := by
  rw [show (0o200 : Nat) = 2 ^ 7 by norm_num, Nat.testBit_lor,
    Nat.testBit_two_pow_of_ne (fun h => hb h.symm)]
  simp

theorem or_write_ne_zero (m : Nat) : (m ||| 0o200) &&& 0o200 ≠ 0 := by
  intro h
  have h7 : (m ||| 0o200).testBit 7 = true := by
    rw [Nat.testBit_lor]
    have hx : Nat.testBit 0o200 7 = true := by decide
    simp [hx]
  have h2 : ((m ||| 0o200) &&& 0o200).testBit 7 = true := by
    rw [Nat.testBit_and, h7]
    simp [show Nat.testBit 0o200 7 = true by decide]
  rw [h] at h2
  simp at h2

theorem resolveFs_of_lookup_nonsym (fs : Fs) (p : Path) (e : Entry)
    (h : lookupFs fs p = some e) (hs : entrySym e = none) :
    resolveFs fs 40 p = some p := by
  show resolveFs fs (39 + 1) p = some p
  unfold resolveFs
  rw [h]
  cases e <;> simp_all [entrySym]

theorem resolveFs_of_lookup_none (fs : Fs) (p : Path)
    (h : lookupFs fs p = none) : resolveFs fs 40 p = some p := by
  show resolveFs fs (39 + 1) p = some p
  unfold resolveFs
  rw [h]

theorem statFs_of_lookup_nonsym (fs : Fs) (p : Path) (e : Entry)
    (h : lookupFs fs p = some e) (hs : entrySym e = none) : statFs fs p = some e := by
  unfold statFs
  rw [resolveFs_of_lookup_nonsym fs p e h hs]
  exact h

/-- C5.  The source sniffs gzip from the stream's first bytes, but the
decompressing reader is bound to a block-scoped variable, so the tar
decoder receives the raw compressed bytes: for a concrete gzip-encoded
empty tar archive, detection fires and yet the stream handed to the tar
layer is the 45-byte compressed input (a truncated, invalid tar header
block) instead of the 10240-byte decompressed archive. -/
theorem extractArchive_gzip_shadow_bug :
    sniffGzip gzEmptyTar = true
    ∧ tarStreamInput gzEmptyTar = gzEmptyTar
    ∧ tarStreamInput gzEmptyTar ≠ emptyTarBytes
    ∧ tarHeaderTruncated (tarStreamInput gzEmptyTar) = true :=
  ⟨by decide, rfl, by decide, by decide⟩

/-- C10 counterexample: a pre-existing symlink at the `apptainer`
scaffold path pointing at `dev` — a target that does not exist before
the run — does not make `makeBaseEnv` fail, because `makeDirs` creates
`dev` before `makeSymlinks` checks the link. -/
theorem makeSymlinks_dangling_counterexample :
    lookupFs demoFsDangling (joinP demoRoot "apptainer".data)
        = some (.symlink "dev".data)
    ∧ lookupFs demoFsDangling (joinP demoRoot "dev".data) = none
    ∧ isOkE (makeBaseEnv demoRoot demoFsDangling) = true :=
  ⟨by decide, by decide, by decide⟩

/-- C8.  When the rootfs directory lacks the owner-write bit,
`makeBaseEnv` adds it (or-ing `0o200` into the mode, leaving every
other permission bit unchanged) and proceeds with the scaffold phases;
when the permission change itself fails, `makeBaseEnv` stops with the
wrapped chmod error instead of continuing. -/
theorem makeBaseEnv_write_permission :
    (∀ (fs : Fs) (root : Path) (m : Nat),
      lookupFs fs root = some (.dir m false) → m &&& 0o200 = 0 →
      makeBaseEnv root fs
          = scaffoldPhases root (setFs fs root (.dir (m ||| 0o200) false))
        ∧ (m ||| 0o200) &&& 0o200 ≠ 0
        ∧ ∀ b : Nat, b ≠ 7 → (m ||| 0o200).testBit b = m.testBit b)
    ∧ (∀ (fs : Fs) (root : Path) (m : Nat),
      lookupFs fs root = some (.dir m true) → m &&& 0o200 = 0 →
      makeBaseEnv root fs = .error (.chmodRoot .eperm)) := by
  constructor
  · intro fs root m h hm
    have hst : statFs fs root = some (.dir m false) :=
      statFs_of_lookup_nonsym fs root _ h rfl
    have hres : resolveFs fs 40 root = some root :=
      resolveFs_of_lookup_nonsym fs root _ h rfl
    refine ⟨?_, or_write_ne_zero m, fun b hb => or_write_testBit m b hb⟩
    unfold makeBaseEnv ensureRootWritable
    rw [hst]
    simp only [entryMode, hm, beq_self_eq_true, if_true]
    unfold chmodFs
    rw [hres]
    simp [h]
    rfl
  · intro fs root m h hm
    have hst : statFs fs root = some (.dir m true) :=
      statFs_of_lookup_nonsym fs root _ h rfl
    have hres : resolveFs fs 40 root = some root :=
      resolveFs_of_lookup_nonsym fs root _ h rfl
    unfold makeBaseEnv ensureRootWritable
    rw [hst]
    simp only [entryMode, hm, beq_self_eq_true, if_true]
    unfold chmodFs
    rw [hres]
    simp [h]
    rfl

/-- Witness for C8: a `0o555` rootfs gets mode `0o755` and the build
proceeds; the same rootfs with a denied chmod stops with the wrapped
error. -/
theorem makeBaseEnv_write_permission_witness :
    makeBaseEnv demoRoot demoFsRo
        = scaffoldPhases demoRoot (setFs demoFsRo demoRoot (.dir (0o555 ||| 0o200) false))
    ∧ makeBaseEnv demoRoot demoFsDenied = .error (.chmodRoot .eperm) := by
  constructor
  · exact (makeBaseEnv_write_permission.1 demoFsRo demoRoot 0o555
      (by decide) (by decide)).1
  · exact makeBaseEnv_write_permission.2 demoFsDenied demoRoot 0o555
      (by decide) (by decide)

/-! ### Association-list filesystem lemmas -/

theorem lookupFs_setFs_self (fs : Fs) (p : Path) (e : Entry) :
    lookupFs (setFs fs p e) p = some e := by
  induction fs with
  | nil => simp [setFs, lookupFs]
  | cons b r ih =>
    obtain ⟨q, e0⟩ := b
    by_cases hq : q = p
    · simp [setFs, lookupFs, hq]
    · simp [setFs, lookupFs, hq, ih]

theorem lookupFs_setFs_ne (fs : Fs) (p q : Path) (e : Entry) (h : q ≠ p) :
    lookupFs (setFs fs p e) q = lookupFs fs q := by
  induction fs with
  | nil =>
    simp [setFs, lookupFs]
    exact fun hh => absurd hh.symm h
  | cons b r ih =>
    obtain ⟨q0, e0⟩ := b
    by_cases hq : q0 = p
    · have hq0q : ¬ q0 = q := fun hh => h (hh.symm.trans hq)
      subst hq
      simp [setFs, lookupFs, hq0q]
    · by_cases hq2 : q0 = q
      · subst hq2
        simp [setFs, lookupFs, hq]
      · simp [setFs, lookupFs, hq, hq2, ih]

theorem setFs_same (fs : Fs) (p : Path) (e : Entry)
    (h : lookupFs fs p = some e) : setFs fs p e = fs := by
  induction fs with
  | nil => simp [lookupFs] at h
  | cons b r ih =>
    obtain ⟨q0, e0⟩ := b
    by_cases hq : q0 = p
    · simp [lookupFs, hq] at h
      simp [setFs, hq, h]
    · simp [lookupFs, hq] at h
      simp [setFs, hq, ih h]

theorem mem_setFs (fs : Fs) (p : Path) (e : Entry) (pe : Path × Entry)
    (h : pe ∈ setFs fs p e) : pe = (p, e) ∨ pe ∈ fs := by
  induction fs with
  | nil => simp [setFs] at h; simp [h]
  | cons b r ih =>
    obtain ⟨q0, e0⟩ := b
    by_cases hq : q0 = p
    · simp [setFs, hq] at h
      rcases h with h | h
      · left; simp [h, hq]
      · right; simp [h]
    · simp [setFs, hq] at h
      rcases h with h | h
      · right; simp [h]
      · rcases ih h with h2 | h2
        · left; exact h2
        · right; simp [h2]

theorem lookupFs_mem (fs : Fs) (p : Path) (e : Entry)
    (h : lookupFs fs p = some e) : (p, e) ∈ fs := by
  induction fs with
  | nil => simp [lookupFs] at h
  | cons b r ih =>
    obtain ⟨q0, e0⟩ := b
    by_cases hq : q0 = p
    · simp [lookupFs, hq] at h
      simp [hq, h]
    · simp [lookupFs, hq] at h
      simp [ih h]

theorem lookupFs_setFs_ne_none (fs : Fs) (p q : Path) (e : Entry)
    (h : lookupFs fs q ≠ none) : lookupFs (setFs fs p e) q ≠ none := by
  by_cases hq : q = p
  · subst hq; simp [lookupFs_setFs_self]
  · rw [lookupFs_setFs_ne fs p q e hq]; exact h

theorem noSymlinks_lookup (fs : Fs) (p : Path) (e : Entry)
    (hns : NoSymlinks fs) (h : lookupFs fs p = some e) :
    entryIsSymlink e = false :=
  hns (p, e) (lookupFs_mem fs p e h)

theorem noSymlinks_setFs (fs : Fs) (p : Path) (e : Entry)
    (hns : NoSymlinks fs) (he : entryIsSymlink e = false) :
    NoSymlinks (setFs fs p e) := by
  intro pe hpe
  rcases mem_setFs fs p e pe hpe with h | h
  · simp [h, he]
  · exact hns pe h

theorem entrySym_none_of_not_symlink (e : Entry) (h : entryIsSymlink e = false) :
    entrySym e = none := by
  cases e <;> simp_all [entryIsSymlink, entrySym]

/-- Under a symlink-free filesystem, stat is plain lookup. -/
theorem statFs_eq_lookup (fs : Fs) (p : Path) (hns : NoSymlinks fs) :
    statFs fs p = lookupFs fs p := by
  rcases h : lookupFs fs p with _ | e
  · unfold statFs
    rw [resolveFs_of_lookup_none fs p h]
    exact h
  · exact statFs_of_lookup_nonsym fs p e h
      (entrySym_none_of_not_symlink e (noSymlinks_lookup fs p e hns h))

/-- C6 counterexample: extracting a 2-byte regular-file entry over an
existing 4-byte file leaves the old tail in place — the result is
`abyz`, not the entry's exact bytes `ab` (the open lacks `O_TRUNC`). -/
theorem extract_regfile_truncate_counterexample :
    (extractEntries exDst [⟨"f".data, typeReg, 0o644, "ab".data⟩] exFsFile).err = none
    ∧ lookupFs (extractEntries exDst [⟨"f".data, typeReg, 0o644, "ab".data⟩] exFsFile).fs
        "/d/f".data = some (.file "abyz".data 0o644 false)
    ∧ ("abyz".data : Chars) ≠ "ab".data :=
  ⟨by decide, by decide, by decide⟩

/-- Entry processing specialized to each branch of the source loop. -/
theorem extractEntry_illegal (dst : Path) (fs : Fs) (e : TarEntry)
    (h : insideDst dst (extractTarget dst e) = false) :
    extractEntry dst fs e = (fs, some (.illegalPath (extractTarget dst e))) := by
  unfold extractEntry
  simp [h]

theorem extractEntry_dir (dst : Path) (fs : Fs) (e : TarEntry)
    (hdir : e.typeflag = typeDir)
    (hlegal : insideDst dst (extractTarget dst e) = true) :
    extractEntry dst fs e
      = (match statFs fs (extractTarget dst e) with
         | some _ => (fs, none)
         | none => mkdirAllP fs (extractTarget dst e)) := by
  unfold extractEntry
  simp [hlegal, hdir]

theorem extractEntry_reg (dst : Path) (fs : Fs) (e : TarEntry)
    (hreg : e.typeflag = typeReg)
    (hlegal : insideDst dst (extractTarget dst e) = true) :
    extractEntry dst fs e
      = (match openCreateWrite fs (extractTarget dst e) e.mode e.content with
         | .ok fs2 => (fs2, none)
         | .error er => (fs, some er)) := by
  unfold extractEntry
  simp [hlegal, hreg, typeReg, typeDir]

theorem extractEntry_other (dst : Path) (fs : Fs) (e : TarEntry)
    (hd : e.typeflag ≠ typeDir) (hr : e.typeflag ≠ typeReg)
    (hlegal : insideDst dst (extractTarget dst e) = true) :
    extractEntry dst fs e = (fs, none) := by
  unfold extractEntry
  simp [hlegal, hd, hr]

/-- C6 (amended).  For a regular-file entry passing the path check:
when the target is absent (and its parent directory exists) the file is
created with exactly the entry's bytes and mode; when a file already
exists at the target, the entry's bytes overwrite the head of the old
content and any old tail beyond the entry's length survives (the open
uses `O_CREATE|O_RDWR` without `O_TRUNC`). -/
theorem extract_regfile_amended (dst : Path) (fs : Fs) (e : TarEntry)
    (hreg : e.typeflag = typeReg)
    (hlegal : insideDst dst (extractTarget dst e) = true) :
    (∀ pm pd, lookupFs fs (extractTarget dst e) = none →
      statFs fs (parentDir (extractTarget dst e)) = some (.dir pm pd) →
      extractEntry dst fs e
        = (setFs fs (extractTarget dst e) (.file e.content e.mode false), none))
    ∧ (∀ oldc m d, lookupFs fs (extractTarget dst e) = some (.file oldc m d) →
      extractEntry dst fs e
        = (setFs fs (extractTarget dst e)
            (.file (overlayWrite e.content oldc) m d), none)) := by
  constructor
  · intro pm pd habs hpar
    rw [extractEntry_reg dst fs e hreg hlegal]
    unfold openCreateWrite
    rw [resolveFs_of_lookup_none fs _ habs]
    simp [habs, hpar]
  · intro oldc m d hfile
    rw [extractEntry_reg dst fs e hreg hlegal]
    unfold openCreateWrite
    rw [resolveFs_of_lookup_nonsym fs _ _ hfile rfl]
    simp [hfile]

/-- Witness for C6 (amended): creation at an absent target yields
exactly the entry's bytes; an existing longer file keeps its tail. -/
theorem extract_regfile_amended_witness :
    extractEntry exDst exFs0 ⟨"f".data, typeReg, 0o644, "ab".data⟩
        = (setFs exFs0 "/d/f".data (.file "ab".data 0o644 false), none)
    ∧ extractEntry exDst exFsFile ⟨"f".data, typeReg, 0o644, "ab".data⟩
        = (setFs exFsFile "/d/f".data (.file "abyz".data 0o644 false), none) := by
  constructor
  · have h := (extract_regfile_amended exDst exFs0 ⟨"f".data, typeReg, 0o644, "ab".data⟩
      rfl (by decide)).1 0o755 false (by decide) (by decide)
    rw [show extractTarget exDst ⟨"f".data, typeReg, 0o644, "ab".data⟩ = "/d/f".data
      from by decide] at h
    exact h
  · have h := (extract_regfile_amended exDst exFsFile ⟨"f".data, typeReg, 0o644, "ab".data⟩
      rfl (by decide)).2 "wxyz".data 0o644 false (by decide)
    rw [show extractTarget exDst ⟨"f".data, typeReg, 0o644, "ab".data⟩ = "/d/f".data
      from by decide] at h
    rw [show overlayWrite "ab".data "wxyz".data = "abyz".data from by decide] at h
    exact h

end Apptainer
